import Mathlib

/-!
Verification development for `add_images.py` (Encounter+ Image/Token Adder).

The embedding below translates the program's functions into Lean definitions:
pure string manipulation becomes functions on `String`/`List Char`, the
stateful orchestration of `main` becomes explicit state passing, exceptions
(`Quit`, `SystemExit`, `ValueError`, `EOFError`) become an explicit error sum,
and the user's interactive responses become an input list that is consumed.
The external `fuzzywuzzy` similarity library is not part of the repository;
its `fuzz.ratio` is modelled from the spec (Ratcliff/Obershelp matching-block
similarity, difflib backend) where noted.
-/

namespace AddImages

/-- Python substring membership `sub in s` (notably `"" in s` is `True`):
`leadsList pat l` is the auxiliary "pat literally starts l" check. -/
def leadsList : List Char → List Char → Bool
  | [], _ => true
  | _ :: _, [] => false
  | p :: ps, c :: cs => p = c && leadsList ps cs

/-- `occursIn pat l`: `pat` occurs as a contiguous subsequence of `l`.
Models Python's `sub in s` on strings. -/
def occursIn (pat : List Char) : List Char → Bool
  | [] => leadsList pat []
  | c :: cs => leadsList pat (c :: cs) || occursIn pat cs

/-- Python `sub in s` for strings. -/
def pyStrIn (sub s : String) : Bool := occursIn sub.toList s.toList

/-- `suffixMatches suf s`: Python `s.endswith(suf)` (case-sensitive). -/
def suffixMatches (suf s : String) : Bool :=
  leadsList suf.toList.reverse s.toList.reverse

/-- Python `s.endswith(tuple)`: true when any suffix of the tuple matches. -/
def pyEndswithAny (s : String) (sufs : List String) : Bool :=
  sufs.any (fun suf => suffixMatches suf s)

/-- Index of the last occurrence of `c` in `l`, if any (Python `str.rfind`). -/
def lastIdxOf (c : Char) (l : List Char) : Option ℕ :=
  (l.zip (List.range l.length)).foldl
    (fun acc e => if e.1 = c then some e.2 else acc) none

/-- Python `os.path.basename`: the part after the last `/` (POSIX). -/
def pyBasename (p : String) : String :=
  String.mk (p.toList.foldl (fun acc c => if c = '/' then [] else acc ++ [c]) [])

/-- Python `os.path.splitext`: split off the extension at the last dot,
provided the dot lies after the last path separator and the base name is not
made of dots only up to that position (leading dots do not start an
extension). -/
def pySplitext (p : String) : String × String :=
  let l := p.toList
  match lastIdxOf '.' l with
  | none => (p, "")
  | some d =>
    let fnameIdx := match lastIdxOf '/' l with
      | none => 0
      | some s => s + 1
    if fnameIdx ≤ d ∧ d ≠ fnameIdx ∧
        ((l.drop fnameIdx).take (d - fnameIdx)).any (fun c => c ≠ '.') then
      (String.mk (l.take d), String.mk (l.drop d))
    else (p, "")

/-- Python `str.lower` (ASCII scope; the program only compares ASCII
extensions). -/
def pyLower (s : String) : String := String.mk (s.toList.map Char.toLower)

/-- The extension allow-list of `find_images` (source line 52), exactly as the
`str.endswith` tuple in the source: lower-case only. -/
def imageExts : List String := [".jpg", ".jpeg", ".png"]

/-- A directory of a recursive `os.walk`: the directory path together with the
plain file names found directly in it. -/
structure WalkDir where
  dir : String
  files : List String
deriving DecidableEq, Repr

/-- `find_images` (source lines 48-56): walk the tree and collect every file
whose name ends with `.jpg`, `.jpeg` or `.png` (a case-sensitive
`str.endswith` test), joined to its directory. -/
def find_images (walk : List WalkDir) : List String :=
  walk.flatMap (fun w =>
    (w.files.filter (fun f => pyEndswithAny f imageExts)).map
      (fun f => w.dir ++ "/" ++ f))

/-- Membership test for the regex character class `[\W _]` of source line 67,
at ASCII scope: a character matched by `\W` (not alphanumeric and not
underscore), or an underscore, or a space.  Python 3's `\w`/`\W` are
Unicode-aware, so a Unicode word character such as `é` is NOT stripped by the
source while this ASCII embedding strips it: the embedding is exact precisely
on ASCII strings, and every theorem whose truth depends on faithfulness
beyond structure carries an explicit ASCII side condition. -/
def inClassW (c : Char) : Bool :=
  (!c.isAlphanum && c ≠ '_') || c = '_' || c = ' '

/-- `re.sub(r'[\W _]+', '', s)` (source line 68): every maximal run of
characters of the class is replaced by the empty string.  Fuelled scan; one
step consumes at least one character, so fuel `l.length` suffices. -/
def subRunsFuel : ℕ → List Char → List Char
  | 0, _ => []
  | _ + 1, [] => []
  | n + 1, c :: cs =>
    if inClassW c then subRunsFuel n (cs.dropWhile inClassW)
    else c :: subRunsFuel n cs

/-- Non-alphanumeric run removal of source line 68 on a char list. -/
def subNonAlnumRuns (l : List Char) : List Char := subRunsFuel l.length l

/-- Case-insensitive "pattern starts here" test (ASCII lowering), the literal
match step of `re.compile(tag, re.IGNORECASE)`. -/
def ciLeads : List Char → List Char → Bool
  | [], _ => true
  | _ :: _, [] => false
  | p :: ps, c :: cs => p.toLower = c.toLower && ciLeads ps cs

/-- `re.sub(tag, '', s)` with `re.IGNORECASE` for a literal pattern `pat`
(source lines 70-71): scan left to right, removing each non-overlapping
case-insensitive occurrence of `pat`.  Fuelled; each step consumes at least
one character when `pat` is nonempty, and fuel `l.length` suffices. -/
def ciRemoveFuel (pat : List Char) : ℕ → List Char → List Char
  | 0, _ => []
  | _ + 1, [] => []
  | n + 1, c :: cs =>
    if pat ≠ [] ∧ ciLeads pat (c :: cs) then
      ciRemoveFuel pat n (List.drop (pat.length - 1) cs)
    else c :: ciRemoveFuel pat n cs

/-- Case-insensitive removal of every occurrence of `pat` from `l`. -/
def ciRemove (pat l : List Char) : List Char := ciRemoveFuel pat l.length l

/-- The cleaned comparison key of a candidate (source lines 63-71): base file
name without extension, non-alphanumeric runs removed, then the tag hint
stripped case-insensitively.  ASCII scope inherited from `inClassW`: on a
file name containing non-ASCII word characters the source keeps them (its
cleaned name can contain `é`) while this model strips them, so conclusions
about cleaned names are drawn only under ASCII side conditions. -/
def cleanedFileName (path tag : String) : String :=
  let base := (pySplitext (pyBasename path)).1
  String.mk (ciRemove tag.toList (subNonAlnumRuns base.toList))

/-- Python `round` (half to even, as used by `fuzzywuzzy.utils.intr`) applied
to the non-negative fraction `num / den` (`den > 0`): floor plus the
half-to-even correction on the remainder. -/
def pyRoundFrac (num den : ℕ) : ℕ :=
  let f := num / den
  let rem := num % den
  if 2 * rem < den then f
  else if den < 2 * rem then f + 1
  else if f % 2 = 0 then f else f + 1

/-- Ascending indices `j` with `blo ≤ j < bhi` and `b[j] = c`, over an
index-annotated sequence: the inner candidate set of difflib's
`find_longest_match` (the `b2j` lookup restricted to the window). -/
def idxMatches (bi : List (Char × ℕ)) (c : Char) (blo bhi : ℕ) : List ℕ :=
  (bi.filter (fun e => e.1 = c ∧ blo ≤ e.2 ∧ e.2 < bhi)).map (fun e => e.2)

/-- Lookup in the `j2len` association list of `find_longest_match`
(`dict.get(j-1, 0)` semantics: absent keys give `0`). -/
def lookupJ (m : List (ℕ × ℕ)) (j : ℕ) : ℕ :=
  match m.find? (fun e => e.1 = j) with
  | none => 0
  | some e => e.2

/-- One row (`a`-element `ci`) of difflib `find_longest_match`'s dynamic
program: fold over the matching `j` positions, extending runs recorded in the
previous row's `j2len` and tracking the first longest block.  Modelled from
the spec: the matcher is the external difflib backend of `fuzzywuzzy`. -/
def flmStep (bi : List (Char × ℕ)) (blo bhi : ℕ)
    (acc : (ℕ × ℕ × ℕ) × List (ℕ × ℕ)) (ci : Char × ℕ) :
    (ℕ × ℕ × ℕ) × List (ℕ × ℕ) :=
  let js := idxMatches bi ci.1 blo bhi
  let res := js.foldl
    (fun st j =>
      let k := (if j = 0 then 0 else lookupJ acc.2 (j - 1)) + 1
      let best := if k > st.1.2.2 then (ci.2 + 1 - k, j + 1 - k, k) else st.1
      (best, (j, k) :: st.2))
    (acc.1, [])
  res

/-- difflib `find_longest_match` over the windows `a[alo:ahi]`, `b[blo:bhi]`
with no junk (both sequences here are shorter than the autojunk threshold of
200 in every general theorem's instantiation and every concrete evaluation).
Returns `(i, j, size)` of the first longest matching block.  Modelled from
the spec: Ratcliff/Obershelp longest-matching-block similarity. -/
def flm (ai bi : List (Char × ℕ)) (alo ahi blo bhi : ℕ) : ℕ × ℕ × ℕ :=
  let awin := ai.filter (fun e => alo ≤ e.2 ∧ e.2 < ahi)
  (awin.foldl (flmStep bi blo bhi) ((alo, blo, 0), [])).1

/-- Total size of difflib's matching blocks: recursive decomposition around
the longest match, as in `get_matching_blocks`.  Fuelled; each recursive call
strictly shrinks the `a` window, so fuel `|a| + 1` suffices. -/
def matchesFuel (ai bi : List (Char × ℕ)) :
    ℕ → ℕ → ℕ → ℕ → ℕ → ℕ
  | 0, _, _, _, _ => 0
  | n + 1, alo, ahi, blo, bhi =>
    let r := flm ai bi alo ahi blo bhi
    let i := r.1
    let j := r.2.1
    let k := r.2.2
    if k = 0 then 0
    else k + matchesFuel ai bi n alo i blo j + matchesFuel ai bi n (i + k) ahi (j + k) bhi

/-- Index-annotate a char list. -/
def withIdx (l : List Char) : List (Char × ℕ) := l.zip (List.range l.length)

/-- Total matched characters of `SequenceMatcher(None, a, b)`. -/
def seqMatches (a b : List Char) : ℕ :=
  matchesFuel (withIdx a) (withIdx b) (a.length + 1) 0 a.length 0 b.length

/-- Modelled from the spec: `fuzz.ratio` of the external `fuzzywuzzy`
dependency (difflib backend): `intr(100 * (2M / T))` where `M` is the total
matching-block size and `T` the combined length, with `T = 0` giving ratio
`1.0`; `intr` is Python `int(round(.))`. -/
def fuzzRatio (a b : String) : ℤ :=
  let T : ℕ := a.length + b.length
  if T = 0 then 100
  else (pyRoundFrac (200 * seqMatches a.toList b.toList) T : ℕ)

/-- Errors of the embedded program: Python exceptions (`ValueError` from
`max()` on an empty sequence, `EOFError` from `input()` on exhausted stdin,
the script's own `Quit`, any other `Exception`), `SystemExit` raised by
`sys.exit`, and `stuck` marking exhaustion of the fuel that bounds the
source's unbounded collision-retry loop. -/
inductive Err where
  | emptySeq
  | eof
  | quitExc
  | exc
  | sysExit
  | stuck
deriving DecidableEq, Repr

instance exceptDecEq {ε α : Type} [DecidableEq ε] [DecidableEq α] :
    DecidableEq (Except ε α) := fun x y =>
  match x, y with
  | .ok a, .ok b =>
    if h : a = b then .isTrue (by rw [h]) else .isFalse (by simp [h])
  | .error a, .error b =>
    if h : a = b then .isTrue (by rw [h]) else .isFalse (by simp [h])
  | .ok _, .error _ => .isFalse (by simp)
  | .error _, .ok _ => .isFalse (by simp)

/-- `max(ratios, key=lambda item: item[0])` (source line 77): first maximal
element by score; `ValueError` on an empty list. -/
def pyMaxByFst : List (ℤ × String) → Except Err (ℤ × String)
  | [] => .error .emptySeq
  | x :: xs =>
    .ok (xs.foldl (fun best y => if y.1 > best.1 then y else best) x)

/-- The score/candidate pairs computed by `find_best_match` (source lines
61-74): each candidate's cleaned file name scored against the target name,
which is passed verbatim. -/
def ratiosOf (images : List String) (name tag : String) : List (ℤ × String) :=
  images.map (fun p => (fuzzRatio (cleanedFileName p tag) name, p))

/-- `find_best_match` (source lines 59-77). -/
def find_best_match (images : List String) (name tag : String) :
    Except Err (ℤ × String) :=
  pyMaxByFst (ratiosOf images name tag)

/-- Interpretation of a validated prompt response (source lines 115-118,
124): `if choice in "q": raise Quit`, then `if choice == "n": return None`,
otherwise the candidate is returned.  Note the first test is Python substring
membership. -/
def interpretChoice (choice p : String) : Except Err (Option String) :=
  if pyStrIn choice "q" then .error .quitExc
  else if choice = "n" then .ok none
  else .ok (some p)

/-- The prompt loop of source lines 110-118: read a response, re-prompt while
it is not one of `n`, `y`, `` (empty), `q`, then interpret it.  The returned
triple carries the interpreted result, the remaining operator inputs, and the
number of `input()` calls made; an exhausted input list models `EOFError`. -/
def askLoop (p : String) : List String → Except Err (Option String × List String × ℕ)
  | [] => .error .eof
  | c :: rest =>
    if c ∈ ["n", "y", "", "q"] then
      (interpretChoice c p).map (fun r => (r, rest, 1))
    else
      (askLoop p rest).map (fun t => (t.1, t.2.1, t.2.2 + 1))

/-- The function `match` of the source (lines 97-124; renamed, `match` is a
Lean keyword): three-tier policy on the best candidate's score.  Returns the
chosen file (or `none` for no attachment), the remaining operator inputs, and
the number of prompts issued. -/
def matchFn (tag name : String) (images : List String) (autoR askR : ℚ)
    (inputs : List String) : Except Err (Option String × List String × ℕ) :=
  match find_best_match images name tag with
  | .error e => .error e
  | .ok (s, p) =>
    if autoR ≤ (s : ℚ) then .ok (some p, inputs, 0)
    else if askR ≤ (s : ℚ) then askLoop p inputs
    else .ok (none, inputs, 0)

/-- The `sub_directories` mapping (source lines 38-41).  The source indexes
the dict only with `node.tag ∈ {"monster", "item"}` (guarded at line 197), so
a total function with `items` in the remaining case is faithful on every
reachable call. -/
def sub_directories (nodeType : String) : String :=
  if nodeType = "monster" then "monsters" else "items"

/-- The collision-resolution loop of `add_image_to_compendium_zip` (source
lines 86-90): while the destination is taken, append `_<random>` (drawn from
`stream`) to the base name.  The source loop is unbounded in principle; it is
fuelled here, and since every retry strictly lengthens the candidate name the
fuel `names.length + 1` used below always suffices. -/
def add_image_loop (nodeType : String) (names : List String)
    (stream : ℕ → String) : ℕ → String → ℕ → Option (String × ℕ)
  | 0, _, _ => none
  | n + 1, imageFileName, sIdx =>
    let dst := sub_directories nodeType ++ "/" ++ imageFileName
    if dst ∈ names then
      let se := pySplitext imageFileName
      add_image_loop nodeType names stream n (se.1 ++ "_" ++ stream sIdx ++ se.2) (sIdx + 1)
    else some (dst, sIdx)

/-- `add_image_to_compendium_zip` (source lines 80-94): pick a unique
destination path under the node type's subdirectory and write the file there.
Returns the arcname actually written and the advanced suffix-stream index. -/
def add_image_to_compendium_zip (path nodeType : String) (names : List String)
    (stream : ℕ → String) (sIdx : ℕ) : Option (String × ℕ) :=
  add_image_loop nodeType names stream (names.length + 1) (pyBasename path) sIdx

/-- A child element of a compendium entry (tag and text content). -/
structure XmlChild where
  tag : String
  text : String
deriving DecidableEq, Repr

/-- A top-level node of the parsed compendium document: its tag and its child
elements in document order (the `name` child included). -/
structure XmlEntry where
  tag : String
  children : List XmlChild
deriving DecidableEq, Repr

/-- `node.find(t)`: the first child with the given tag, if any. -/
def findChild (e : XmlEntry) (t : String) : Option XmlChild :=
  e.children.find? (fun c => c.tag = t)

/-- The per-entry pool map of source lines 205-209: `image` when the image
pool is nonempty, and additionally `token` for monsters when the token pool
is nonempty (Python dict insertion order). -/
def tag_files (nodeTag : String) (images tokens : List String) :
    List (String × List String) :=
  (if images.length ≠ 0 then [("image", images)] else []) ++
    (if nodeTag = "monster" ∧ tokens.length ≠ 0 then [("token", tokens)] else [])

/-- The accept step of source lines 222-225 in isolation: write the image
into the archive (with collision resolution) and build the child element
attached to the entry.  The child's text is `os.path.basename(image_file_path)`
recomputed from the source path, exactly as in line 224. -/
def acceptStep (path nodeTag tag : String) (names : List String)
    (stream : ℕ → String) (sIdx : ℕ) : Option (String × XmlChild × ℕ) :=
  (add_image_to_compendium_zip path nodeTag names stream sIdx).map
    (fun r => (r.1, ⟨tag, pyBasename path⟩, r.2))

/-- Mutable loop state of `main`'s entry processing: the zip entries written
so far beyond the copied assets (arcname, bytes), the remaining operator
inputs, and the suffix-stream index. -/
structure PState where
  delta : List (String × String)
  inputs : List String
  sIdx : ℕ
deriving Repr

/-- The inner `for tag, files in tag_files.items()` loop of source lines
211-225 for one entry.  The `Bool` of the result is `true` when the loop hit
an entry that already carries the tag: source line 216 executes `return`,
leaving `main` entirely. -/
def processTags (stream : ℕ → String) (disk : String → String)
    (autoR askR : ℚ) (nodeTag name : String) (baseNames : List String) :
    List (String × List String) → XmlEntry → PState →
    Except Err (XmlEntry × PState × Bool)
  | [], e, st => .ok (e, st, false)
  | (tag, files) :: rest, e, st =>
    if (findChild e tag).isSome then .ok (e, st, true)
    else
      match matchFn tag name files autoR askR st.inputs with
      | .error er => .error er
      | .ok (none, inputs2, _) =>
        processTags stream disk autoR askR nodeTag name baseNames rest e
          { st with inputs := inputs2 }
      | .ok (some path, inputs2, _) =>
        match add_image_to_compendium_zip path nodeTag
            (baseNames ++ st.delta.map (fun d => d.1)) stream st.sIdx with
        | none => .error .stuck
        | some (dst, sIdx2) =>
          processTags stream disk autoR askR nodeTag name baseNames rest
            ⟨e.tag, e.children ++ [⟨tag, pyBasename path⟩]⟩
            ⟨st.delta ++ [(dst, disk path)], inputs2, sIdx2⟩

/-- The `for node in root.findall("*")` loop of source lines 195-225.  Nodes
that are not `monster`/`item` are skipped; a missing `name` child raises
(`AttributeError`, an `Exception`); the `Bool` marks the early `return` of
line 216, which leaves every remaining entry unprocessed. -/
def processEntries (stream : ℕ → String) (disk : String → String)
    (autoR askR : ℚ) (images tokens : List String) (baseNames : List String) :
    List XmlEntry → PState → Except Err (List XmlEntry × PState × Bool)
  | [], st => .ok ([], st, false)
  | e :: rest, st =>
    if e.tag ∉ ["monster", "item"] then
      (processEntries stream disk autoR askR images tokens baseNames rest st).map
        (fun r => (e :: r.1, r.2.1, r.2.2))
    else
      match findChild e "name" with
      | none => .error .exc
      | some nm =>
        match processTags stream disk autoR askR e.tag nm.text baseNames
            (tag_files e.tag images tokens) e st with
        | .error er => .error er
        | .ok (e2, st2, true) => .ok (e2 :: rest, st2, true)
        | .ok (e2, st2, false) =>
          (processEntries stream disk autoR askR images tokens baseNames rest st2).map
            (fun r => (e2 :: r.1, r.2.1, r.2.2))

/-- Rendering of a child element, for the re-serialized document. -/
def renderChild (c : XmlChild) : String :=
  "<" ++ c.tag ++ ">" ++ c.text ++ "</" ++ c.tag ++ ">"

/-- Rendering of a top-level entry. -/
def renderEntry (e : XmlEntry) : String :=
  "<" ++ e.tag ++ ">" ++ String.join (e.children.map renderChild) ++ "</" ++ e.tag ++ ">"

/-- `ElementTree.tostring(root)` on the mutated tree (source line 229),
modelled as a canonical rendering of the entry list. -/
def serializeXml (es : List XmlEntry) : String :=
  String.join (es.map renderEntry)

/-- One directory of the extracted archive tree (`os.walk` over the
temporary extraction directory): relative directory (`""` is top level) and
the files directly in it with their bytes. -/
structure ArchDir where
  dir : String
  files : List (String × String)
deriving DecidableEq, Repr

/-- `os.path.relpath(os.path.join(temp, d, f), start=temp)`. -/
def joinRel (d f : String) : String := if d = "" then f else d ++ "/" ++ f

/-- The asset-copy loop of source lines 178-184: every walked file is copied
into the output archive under its relative path, except files named
`compendium.xml` (the name test `f == "compendium.xml"` applies at every
depth). -/
def copyPhase (walk : List ArchDir) : List (String × String) :=
  walk.flatMap (fun w =>
    (w.files.filter (fun f => f.1 ≠ "compendium.xml")).map
      (fun f => (joinRel w.dir f.1, f.2)))

/-- `os.path.exists(os.path.join(temp_dir, "compendium.xml"))` (source line
172): the archive has a top-level `compendium.xml` member. -/
def hasTopCompendium (walk : List ArchDir) : Bool :=
  walk.any (fun w => w.dir = "" ∧ w.files.any (fun f => f.1 = "compendium.xml"))

/-- The whole input of one run of `main`: command-line arguments, the
filesystem contents the run reads (directory walks of each `-i`/`-t`
argument, the extracted archive tree, file bytes by path), the parsed view of
the compendium document (XML parsing itself is abstracted: `entries` is the
list of top-level nodes of the document that is read), the thresholds, the
operator's responses, and the random-suffix stream. -/
structure MainIn where
  compendium_path : String
  path_exists : Bool
  image_path_walks : List (List WalkDir)
  token_path_walks : List (List WalkDir)
  archive : List ArchDir
  entries : List XmlEntry
  auto_ratio : ℚ
  ask_ratio : ℚ
  inputs : List String
  stream : ℕ → String
  disk : String → String

/-- Result of `main`: a normal return with the final document tree and the
output zip contents, or a raised exception together with whether the output
file had already been created when it was raised. -/
inductive MainRes where
  | ok (entries : List XmlEntry) (zip : List (String × String))
  | err (e : Err) (outputCreated : Bool)
deriving DecidableEq, Repr

/-- The entry-processing tail of `main` (source lines 190-229): run the node
loop and, unless it ended in the early `return` of line 216, append the
re-serialized `compendium.xml` to the output zip. -/
def mainRun (inp : MainIn) (images tokens : List String)
    (copied : List (String × String)) : MainRes :=
  match processEntries inp.stream inp.disk inp.auto_ratio inp.ask_ratio images
      tokens (copied.map (fun c => c.1)) inp.entries ⟨[], inp.inputs, 0⟩ with
  | .error er => .err er true
  | .ok (es, st, earlyRet) =>
    .ok es (copied ++ st.delta ++
      (if earlyRet then [] else [("compendium.xml", serializeXml es)]))

/-- `main` (source lines 127-229): argument validation (`sys.exit` before the
output zip exists), image/token indexing, output-zip creation, archive
decompression and asset copying, and entry processing. -/
def mainModel (inp : MainIn) : MainRes :=
  let ext := pyLower (pySplitext inp.compendium_path).2
  if ext ∉ [".zip", ".compendium", ".xml"] then .err .sysExit false
  else if !inp.path_exists then .err .sysExit false
  else if inp.image_path_walks.length + inp.token_path_walks.length = 0 then
    .err .sysExit false
  else
    let images := inp.image_path_walks.foldl (fun acc w => acc ++ find_images w) []
    let tokens := inp.token_path_walks.foldl (fun acc w => acc ++ find_images w) []
    if images.length + tokens.length = 0 then .err .sysExit false
    else if ext ∈ [".zip", ".compendium"] then
      if !hasTopCompendium inp.archive then .err .sysExit true
      else mainRun inp images tokens (copyPhase inp.archive)
    else mainRun inp images tokens []

/-- Which raised errors the `except` clauses of source lines 280-290 catch:
`Quit` (line 282) and every `Exception` subclass (line 286).  `SystemExit`
derives from `BaseException`, not `Exception`, so `sys.exit` is not caught;
`stuck` is the fuel artifact of the unbounded retry loop and has no Python
counterpart. -/
def caughtByDriver : Err → Bool
  | .sysExit => false
  | .stuck => false
  | _ => true

/-- Whether the output file is still on disk after the `__main__` driver
(source lines 280-290) finishes: a caught error deletes it when it exists;
an uncaught error leaves whatever `main` created. -/
def outputFileRemains : MainRes → Bool
  | .ok _ _ => true
  | .err e created => if caughtByDriver e then false else created

/-- Whether an `Except` value is a normal result (`False` models a raised
exception). -/
def exceptOk {α : Type} : Except Err α → Bool
  | .ok _ => true
  | .error _ => false

/-! ### Concrete inputs used by the individual claim analyses -/

/-- A 100-character alphanumeric name fragment (each character appears at
most three times, keeping the matching-block evaluation small). -/
def bigP : String :=
  "abcdefghijklmnopqrstuvwxyz0123456789abcdefghijklmnopqrstuvwxyz0123456789abcdefghijklmnopqrstuvwxyz01"

/-- A monster entry that already carries an `image` child. -/
def entryWithImage : XmlEntry :=
  ⟨"monster", [⟨"name", "Goblin"⟩, ⟨"image", "old.png"⟩]⟩

/-- A monster entry with no attachments and a perfectly matching candidate on
disk. -/
def entryOrc : XmlEntry := ⟨"monster", [⟨"name", "Orc"⟩]⟩

/-- Run input: a bare-XML compendium whose first entry already has an
`image` child and whose second entry does not, with perfect candidates for
both in the image pool. -/
def runExistingTag : MainIn where
  compendium_path := "comp.xml"
  path_exists := true
  image_path_walks := [[⟨"imgs", ["goblin.png", "orc.png"]⟩]]
  token_path_walks := []
  archive := []
  entries := [entryWithImage, entryOrc]
  auto_ratio := 80
  ask_ratio := 50
  inputs := []
  stream := fun _ => "aaaaaa"
  disk := fun _ => "BYTES"

/-- Run input: a `.compendium` archive that has no top-level
`compendium.xml` member. -/
def runMissingMember : MainIn where
  compendium_path := "comp.compendium"
  path_exists := true
  image_path_walks := [[⟨"imgs", ["goblin.png"]⟩]]
  token_path_walks := []
  archive := [⟨"", [("foo.png", "PNGBYTES")]⟩]
  entries := []
  auto_ratio := 80
  ask_ratio := 50
  inputs := []
  stream := fun _ => "aaaaaa"
  disk := fun _ => "BYTES"

/-- Run input: a `.compendium` archive with a top-level `compendium.xml`,
one top-level asset and one nested asset, and no entries to process. -/
def runArchiveCopy : MainIn where
  compendium_path := "comp.compendium"
  path_exists := true
  image_path_walks := [[⟨"imgs", ["goblin.png"]⟩]]
  token_path_walks := []
  archive := [⟨"", [("compendium.xml", "X"), ("a.png", "A")]⟩, ⟨"sub", [("b.bin", "B")]⟩]
  entries := []
  auto_ratio := 80
  ask_ratio := 50
  inputs := []
  stream := fun _ => "aaaaaa"
  disk := fun _ => "BYTES"

/-- An extracted archive tree holding a top-level `compendium.xml`, a
top-level asset, and a nested file that is also named `compendium.xml`. -/
def walkNestedCompendium : List ArchDir :=
  [⟨"", [("compendium.xml", "TOP"), ("a.png", "A")]⟩,
   ⟨"sub", [("compendium.xml", "NESTED")]⟩]

/-! ### Helper lemmas -/

theorem inClassW_eq_not_alnum (c : Char) : inClassW c = !c.isAlphanum := by
  unfold inClassW
  by_cases h1 : c = '_'
  · subst h1; decide
  · by_cases h2 : c = ' '
    · subst h2; decide
    · simp [h1, h2]

theorem dropWhile_length_le (p : Char → Bool) :
    ∀ l : List Char, (l.dropWhile p).length ≤ l.length := by
  intro l
  induction l with
  | nil => simp
  | cons c cs ih =>
    rw [List.dropWhile_cons]
    by_cases h : p c = true
    · rw [if_pos h]; exact le_trans ih (Nat.le_succ _)
    · rw [if_neg h]

theorem filter_alnum_dropWhile (l : List Char) :
    (l.dropWhile inClassW).filter (fun c => c.isAlphanum) =
      l.filter (fun c => c.isAlphanum) := by
  induction l with
  | nil => rfl
  | cons c cs ih =>
    rw [List.dropWhile_cons]
    by_cases h : inClassW c = true
    · have hna : c.isAlphanum = false := by
        rw [inClassW_eq_not_alnum] at h; simpa using h
      rw [if_pos h, ih, List.filter_cons, if_neg (by simp [hna])]
    · have ha : c.isAlphanum = true := by
        rw [inClassW_eq_not_alnum] at h; simpa using h
      rw [if_neg h]

theorem subRunsFuel_eq_filter :
    ∀ (n : ℕ) (l : List Char), l.length ≤ n →
      subRunsFuel n l = l.filter (fun c => c.isAlphanum) := by
  intro n
  induction n with
  | zero =>
    intro l hl
    have : l = [] := List.length_eq_zero.mp (Nat.le_zero.mp hl)
    subst this; rfl
  | succ n ih =>
    intro l hl
    match l with
    | [] => rfl
    | c :: cs =>
      simp only [subRunsFuel]
      by_cases h : inClassW c = true
      · have hna : c.isAlphanum = false := by
          rw [inClassW_eq_not_alnum] at h; simpa using h
        rw [if_pos h, ih _ (le_trans (dropWhile_length_le _ _)
            (Nat.le_of_succ_le_succ hl)), filter_alnum_dropWhile,
          List.filter_cons, if_neg (by simp [hna])]
      · have ha : c.isAlphanum = true := by
          rw [inClassW_eq_not_alnum] at h; simpa using h
        rw [if_neg h, ih _ (Nat.le_of_succ_le_succ hl),
          List.filter_cons, if_pos (by simp [ha])]

theorem subNonAlnumRuns_eq_filter (l : List Char) :
    subNonAlnumRuns l = l.filter (fun c => c.isAlphanum) :=
  subRunsFuel_eq_filter l.length l le_rfl

theorem mem_ciRemoveFuel (pat : List Char) :
    ∀ (n : ℕ) (l : List Char) (c : Char), c ∈ ciRemoveFuel pat n l → c ∈ l := by
  intro n
  induction n with
  | zero => intro l c h; simp [ciRemoveFuel] at h
  | succ n ih =>
    intro l c h
    match l with
    | [] => simp [ciRemoveFuel] at h
    | d :: ds =>
      simp only [ciRemoveFuel] at h
      by_cases hc : pat ≠ [] ∧ ciLeads pat (d :: ds) = true
      · rw [if_pos hc] at h
        exact List.mem_cons_of_mem d (List.mem_of_mem_drop (ih _ c h))
      · rw [if_neg hc] at h
        rcases List.mem_cons.mp h with h1 | h2
        · exact h1 ▸ List.mem_cons_self d ds
        · exact List.mem_cons_of_mem d (ih _ c h2)

theorem cleanedFileName_all_alnum (p tag : String) (c : Char)
    (h : c ∈ (cleanedFileName p tag).toList) : c.isAlphanum = true := by
  have h1 : c ∈ subNonAlnumRuns (pySplitext (pyBasename p)).1.toList :=
    mem_ciRemoveFuel tag.toList _ _ c h
  rw [subNonAlnumRuns_eq_filter] at h1
  exact (List.mem_filter.mp h1).2

theorem cleanedFileName_ne_of_not_alnum (p tag name : String)
    (h : name.toList.any (fun c => !c.isAlphanum) = true) :
    cleanedFileName p tag ≠ name := by
  intro he
  rcases List.any_eq_true.mp h with ⟨c, hc, hna⟩
  have : c.isAlphanum = true := by
    apply cleanedFileName_all_alnum p tag
    rw [he]; exact hc
  simp [this] at hna

theorem foldl_pick_mem (xs : List (ℤ × String)) (x : ℤ × String) :
    xs.foldl (fun best y => if y.1 > best.1 then y else best) x ∈ x :: xs := by
  induction xs generalizing x with
  | nil => simp
  | cons y ys ih =>
    rw [List.foldl_cons]
    rcases List.mem_cons.mp (ih (if y.1 > x.1 then y else x)) with h1 | h2
    · rw [h1]
      by_cases hy : y.1 > x.1
      · rw [if_pos hy]; exact List.mem_cons_of_mem _ (List.mem_cons_self _ _)
      · rw [if_neg hy]; exact List.mem_cons_self _ _
    · exact List.mem_cons_of_mem _ (List.mem_cons_of_mem _ h2)

theorem pyMaxByFst_mem (l : List (ℤ × String)) (x : ℤ × String)
    (h : pyMaxByFst l = .ok x) : x ∈ l := by
  match l with
  | [] => simp [pyMaxByFst] at h
  | y :: ys =>
    simp only [pyMaxByFst, Except.ok.injEq] at h
    rw [← h]
    exact foldl_pick_mem ys y

theorem find_best_match_sound (images : List String) (name tag : String)
    (s : ℤ) (p : String) (h : find_best_match images name tag = .ok (s, p)) :
    p ∈ images ∧ s = fuzzRatio (cleanedFileName p tag) name := by
  have hm : (s, p) ∈ ratiosOf images name tag := pyMaxByFst_mem _ _ h
  rcases List.mem_map.mp hm with ⟨q, hq, he⟩
  have hps : q = p := congrArg Prod.snd he
  subst hps
  exact ⟨hq, (congrArg Prod.fst he).symm⟩

theorem askLoop_prompts_pos (p : String) :
    ∀ (inputs : List String) (o : Option String) (rem : List String) (n : ℕ),
      askLoop p inputs = .ok (o, rem, n) → 1 ≤ n := by
  intro inputs
  induction inputs with
  | nil => intro o rem n h; simp [askLoop] at h
  | cons c rest ih =>
    intro o rem n h
    simp only [askLoop] at h
    by_cases hc : c ∈ ["n", "y", "", "q"]
    · rw [if_pos hc] at h
      cases hi : interpretChoice c p with
      | error e => rw [hi] at h; simp [Except.map] at h
      | ok r =>
        rw [hi] at h
        simp only [Except.map, Except.ok.injEq, Prod.mk.injEq] at h
        omega
    · rw [if_neg hc] at h
      cases ha : askLoop p rest with
      | error e => rw [ha] at h; simp [Except.map] at h
      | ok t =>
        rw [ha] at h
        simp only [Except.map, Except.ok.injEq, Prod.mk.injEq] at h
        omega

/-! ### Claim theorems -/

/-- Claim C9: the cleaned comparison key of a candidate is its base file name
(extension removed) with every run of non-alphanumeric characters — including
underscores and spaces — removed (equivalently: every non-alphanumeric
character filtered out) and the tag hint stripped case-insensitively; in
particular the file name `goblin_token.png` with tag hint `token` cleans to
exactly `goblin`. -/
theorem c9_cleaned_key (p tag : String) :
    cleanedFileName p tag =
      String.mk (ciRemove tag.toList
        ((pySplitext (pyBasename p)).1.toList.filter (fun c => c.isAlphanum))) ∧
    cleanedFileName "goblin_token.png" "token" = "goblin" := by
  constructor
  · simp only [cleanedFileName]
    rw [subNonAlnumRuns_eq_filter]
  · decide

/-- Claim C8 counterexample: the claim says a file named `photo.PNG` is
collected (case-insensitive extension matching); `find_images` collects
nothing for it, because `str.endswith` is case-sensitive. -/
theorem c8_upper_case_not_collected :
    find_images [⟨"imgs", ["photo.PNG"]⟩] = [] := by decide

/-- Claim C8 (amended): the image indexer emits a candidate exactly for the
walked files whose name ends, case-sensitively, in `.jpg`, `.jpeg` or `.png`
(lower case); files with other or differently-cased extensions emit
nothing. -/
theorem c8_extension_filter (walk : List WalkDir) (p : String) :
    p ∈ find_images walk ↔
      ∃ w ∈ walk, ∃ f ∈ w.files,
        pyEndswithAny f imageExts = true ∧ p = w.dir ++ "/" ++ f := by
  simp only [find_images, List.mem_flatMap, List.mem_map, List.mem_filter]
  constructor
  · rintro ⟨w, hw, f, ⟨hf, hext⟩, he⟩
    exact ⟨w, hw, f, hf, hext, he.symm⟩
  · rintro ⟨w, hw, f, hf, hext, he⟩
    exact ⟨w, hw, f, ⟨hf, hext⟩, he.symm⟩

/-- Claim C7 counterexample: on an empty candidate sequence `find_best_match`
does not return a result at all — `max()` raises `ValueError` — rather than
returning a total "no candidate" value. -/
theorem c7_empty_crashes :
    exceptOk (find_best_match [] "Goblin" "image") = false := by decide

/-- Claim C7 (amended): on an empty candidate sequence `find_best_match`
raises (`max()` of an empty sequence) instead of returning a "no candidate"
value; however the orchestrator never supplies an empty pool — a tag kind is
registered in the per-entry pool map only when its candidate list is
nonempty — so no prompt or attachment ever follows from an empty pool. -/
theorem c7_pools_nonempty (nodeTag name tag t : String)
    (images tokens fs : List String)
    (h : (t, fs) ∈ tag_files nodeTag images tokens) :
    fs ≠ [] ∧ find_best_match [] name tag = .error .emptySeq := by
  refine ⟨?_, rfl⟩
  unfold tag_files at h
  rw [List.mem_append] at h
  rcases h with h1 | h2
  · by_cases hi : images.length ≠ 0
    · rw [if_pos hi] at h1
      rw [List.mem_singleton] at h1
      have hfs : fs = images := congrArg Prod.snd h1
      intro hfs0
      exact hi (by rw [← hfs, hfs0]; rfl)
    · rw [if_neg hi] at h1
      simp at h1
  · by_cases ht : nodeTag = "monster" ∧ tokens.length ≠ 0
    · rw [if_pos ht] at h2
      rw [List.mem_singleton] at h2
      have hfs : fs = tokens := congrArg Prod.snd h2
      intro hfs0
      exact ht.2 (by rw [← hfs, hfs0]; rfl)
    · rw [if_neg ht] at h2
      simp at h2

/-- Witness for the C7 theorem at a concrete pool map. -/
theorem c7_pools_nonempty_witness :
    (("image", ["imgs/a.png"]) ∈ tag_files "monster" ["imgs/a.png"] []) ∧
    (["imgs/a.png"] ≠ [] ∧
      find_best_match [] "Zombie" "image" = .error .emptySeq) :=
  ⟨by decide, c7_pools_nonempty "monster" "Zombie" "image" "image"
    ["imgs/a.png"] [] ["imgs/a.png"] (by decide)⟩

set_option maxRecDepth 200000 in
/-- Claim C10 counterexample: an entry name with a character outside
`[a-zA-Z0-9]` (here a trailing space on a 100-character name) for which the
best candidate's cleaned name differs from the name and yet the score is
exactly 100, because `fuzz.ratio` rounds `200*100/201 ≈ 99.5` up. -/
theorem c10_score_can_reach_100 :
    ((bigP ++ " ").toList.any (fun c => !c.isAlphanum) = true) ∧
    cleanedFileName (bigP ++ ".png") "image" = bigP ∧
    find_best_match [bigP ++ ".png"] (bigP ++ " ") "image" =
      .ok (100, bigP ++ ".png") := by decide

/-- Claim C10 (amended): only the candidate file name is cleaned, never the
target — the best match's score is the similarity of the candidate's cleaned
name against the entry name passed verbatim — and for every entry name
containing an ASCII character outside `[a-zA-Z0-9]` (exactly the characters
the cleaning strips; a non-ASCII Unicode word character such as `é` survives
Python's `\W`-based cleaning, so a name like `Café` is excluded — there the
candidate `Café.png` cleans to the name itself) no candidate's cleaned name
can be textually identical to it; the rounded 0-100 score, however, can
still reach 100 for such names. -/
theorem c10_target_uncleaned (images : List String) (name tag : String)
    (s : ℤ) (p : String)
    (hna : name.toList.any (fun c => decide (c.toNat < 128) && !c.isAlphanum) = true)
    (hf : find_best_match images name tag = .ok (s, p)) :
    cleanedFileName p tag ≠ name ∧
      s = fuzzRatio (cleanedFileName p tag) name := by
  have hw : name.toList.any (fun c => !c.isAlphanum) = true := by
    rcases List.any_eq_true.mp hna with ⟨c, hc, hcb⟩
    simp only [Bool.and_eq_true] at hcb
    exact List.any_eq_true.mpr ⟨c, hc, hcb.2⟩
  exact ⟨cleanedFileName_ne_of_not_alnum p tag name hw,
    (find_best_match_sound images name tag s p hf).2⟩

/-- Witness for the C10 theorem at a concrete candidate and target. -/
theorem c10_target_uncleaned_witness :
    (" ".toList.any (fun c => decide (c.toNat < 128) && !c.isAlphanum) = true) ∧
    (find_best_match ["x.png"] " " "image" = .ok (0, "x.png")) ∧
    (cleanedFileName "x.png" "image" ≠ " " ∧
      (0 : ℤ) = fuzzRatio (cleanedFileName "x.png" "image") " ") :=
  ⟨by decide, by decide,
   c10_target_uncleaned ["x.png"] " " "image" 0 "x.png" (by decide) (by decide)⟩

/-- Claim C6: the match policy is a three-tier function of the score,
evaluated in order: score ≥ auto_threshold is accepted with no prompt
(including score = auto_threshold exactly); otherwise
ask_threshold ≤ score < auto_threshold enters the interactive prompt loop,
which issues at least one prompt; otherwise a score below ask_threshold is
rejected with no prompt (in particular score = ask_threshold - 1 whenever
ask_threshold ≤ auto_threshold). -/
theorem c6_three_tier_policy (tag name : String) (images : List String)
    (autoR askR : ℚ) (inputs : List String) (s : ℤ) (p : String)
    (hf : find_best_match images name tag = .ok (s, p)) :
    (autoR ≤ (s : ℚ) →
      matchFn tag name images autoR askR inputs = .ok (some p, inputs, 0)) ∧
    (askR ≤ (s : ℚ) ∧ (s : ℚ) < autoR →
      matchFn tag name images autoR askR inputs = askLoop p inputs ∧
      ∀ o rem n, askLoop p inputs = .ok (o, rem, n) → 1 ≤ n) ∧
    ((s : ℚ) < askR ∧ (s : ℚ) < autoR →
      matchFn tag name images autoR askR inputs = .ok (none, inputs, 0)) ∧
    ((s : ℚ) = autoR →
      matchFn tag name images autoR askR inputs = .ok (some p, inputs, 0)) ∧
    (askR ≤ autoR ∧ (s : ℚ) = askR - 1 →
      matchFn tag name images autoR askR inputs = .ok (none, inputs, 0)) := by
  have hm : matchFn tag name images autoR askR inputs =
      (if autoR ≤ (s : ℚ) then .ok (some p, inputs, 0)
       else if askR ≤ (s : ℚ) then askLoop p inputs
       else .ok (none, inputs, 0)) := by
    simp [matchFn, hf]
  refine ⟨?_, ?_, ?_, ?_, ?_⟩
  · intro h; rw [hm, if_pos h]
  · rintro ⟨h1, h2⟩
    rw [hm, if_neg (by linarith), if_pos h1]
    exact ⟨rfl, fun o rem n => askLoop_prompts_pos p inputs o rem n⟩
  · rintro ⟨h1, h2⟩
    rw [hm, if_neg (by linarith), if_neg (by linarith)]
  · intro h; rw [hm, if_pos (le_of_eq h.symm)]
  · rintro ⟨h1, h2⟩
    rw [hm, if_neg (by linarith), if_neg (by linarith)]

/-- Witness for the C6 theorem: a perfect score with the default thresholds
is auto-accepted with no prompt. -/
theorem c6_three_tier_policy_witness :
    matchFn "image" "goblin" ["imgs/goblin.png"] 80 50 [] =
      .ok (some "imgs/goblin.png", [], 0) :=
  (c6_three_tier_policy "image" "goblin" ["imgs/goblin.png"] 80 50 [] 100
    "imgs/goblin.png" (by decide)).1 (by decide)

/-- Claim C3 (code bug): at an ask-tier prompt, blank input does NOT default
to yes.  `choice in "q"` is a Python substring test and the empty string is a
substring of every string, so blank input raises `Quit`, aborting the run
and deleting the partial output — contradicting the claim (and the prompt's
own text "default: y").  The other behaviors of the claim do hold: invalid
input re-prompts, `n` rejects, `q` quits. -/
theorem c3_blank_input_quits :
    matchFn "image" "goblin x" ["imgs/goblin.png"] 95 50 [""] =
      .error .quitExc ∧
    interpretChoice "" "imgs/goblin.png" = .error .quitExc ∧
    outputFileRemains (.err .quitExc true) = false ∧
    askLoop "c.png" ["zz", "n"] = .ok (none, [], 2) ∧
    askLoop "c.png" ["q"] = .error .quitExc := by decide

/-- Claim C4 (code bug): when the destination collides, the file is written
under a suffixed unique name, but the child element attached to the entry
carries `os.path.basename(image_file_path)` — the ORIGINAL file name — so
both attachments of two colliding sources reference the same `goblin.png`
and the second reference names a file that does not exist in the archive. -/
theorem c4_xml_references_original_name :
    acceptStep "dirA/goblin.png" "monster" "image" [] (fun _ => "aaaaaa") 0 =
      some ("monsters/goblin.png", ⟨"image", "goblin.png"⟩, 0) ∧
    acceptStep "dirB/goblin.png" "monster" "image" ["monsters/goblin.png"]
        (fun _ => "aaaaaa") 0 =
      some ("monsters/goblin_aaaaaa.png", ⟨"image", "goblin.png"⟩, 1) ∧
    pyBasename "monsters/goblin_aaaaaa.png" ≠ "goblin.png" := by decide

/-- Claim C1 (code bug): when an entry already carries an applicable tag,
source line 216 executes `return` — not `continue` — so the whole of `main`
exits: the remaining tag kinds and all remaining entries are never evaluated
(here `entryOrc` keeps no `image` despite a perfect candidate) and the
updated `compendium.xml` is never written into the output zip (the run ends
with an output zip containing no member at all). -/
theorem c1_existing_tag_aborts_run :
    mainModel runExistingTag = .ok [entryWithImage, entryOrc] [] := by decide

/-- Claim C2 (code bug): an archive without a top-level `compendium.xml`
member makes `main` call `sys.exit(1)` after the output zip has been
created; `SystemExit` derives from `BaseException`, not `Exception`, so the
driver's `except Exception` clause does not catch it and the output file is
left on disk, contradicting the claim's "no output file is left on disk". -/
theorem c2_output_left_on_disk :
    mainModel runMissingMember = .err .sysExit true ∧
    outputFileRemains (mainModel runMissingMember) = true := by decide

/-- Claim C5 counterexample: the copy loop skips every file NAMED
`compendium.xml`, not only the top-level compendium document: a nested
member `sub/compendium.xml` is absent from the output, where the claim
requires it to be present. -/
theorem c5_nested_compendium_dropped :
    copyPhase walkNestedCompendium = [("a.png", "A")] ∧
    ("sub/compendium.xml", "NESTED") ∉ copyPhase walkNestedCompendium := by
  decide

/-- Every successful run's output zip starts with the copied assets: the
entry-processing phase only appends. -/
theorem mainRun_zip_shape (inp : MainIn) (images tokens : List String)
    (copied : List (String × String)) (es : List XmlEntry)
    (zip : List (String × String))
    (h : mainRun inp images tokens copied = .ok es zip) :
    ∃ tail, zip = copied ++ tail := by
  unfold mainRun at h
  cases hpe : processEntries inp.stream inp.disk inp.auto_ratio inp.ask_ratio
      images tokens (copied.map (fun c => c.1)) inp.entries ⟨[], inp.inputs, 0⟩ with
  | error er => rw [hpe] at h; simp at h
  | ok t =>
    obtain ⟨es2, st2, er2⟩ := t
    rw [hpe] at h
    simp only [MainRes.ok.injEq] at h
    exact ⟨st2.delta ++ (if er2 then [] else [("compendium.xml", serializeXml es2)]),
      by rw [← h.2, List.append_assoc]⟩

/-- Claim C5 (amended): when the source is an archive, exactly those files
whose base file name is not `compendium.xml` — at any depth, not only the
top-level document — are copied byte-for-byte into the output archive under
their original relative paths, and in every successful run they precede all
newly added material in the output zip. -/
theorem c5_archive_fidelity (walk : List ArchDir) (p c : String)
    (inp : MainIn) (es : List XmlEntry) (zip : List (String × String))
    (hext : pyLower (pySplitext inp.compendium_path).2 ∈ [".zip", ".compendium"])
    (hok : mainModel inp = .ok es zip) :
    ((p, c) ∈ copyPhase walk ↔
      ∃ w ∈ walk, ∃ f, (f, c) ∈ w.files ∧ f ≠ "compendium.xml" ∧
        p = joinRel w.dir f) ∧
    ∃ tail, zip = copyPhase inp.archive ++ tail := by
  constructor
  · simp only [copyPhase, List.mem_flatMap, List.mem_map, List.mem_filter,
      decide_eq_true_eq]
    constructor
    · rintro ⟨w, hw, x, ⟨hx, hne⟩, he⟩
      have hc : x.2 = c := congrArg Prod.snd he
      have hp : joinRel w.dir x.1 = p := congrArg Prod.fst he
      exact ⟨w, hw, x.1, by rw [← hc]; simpa using hx, hne, hp.symm⟩
    · rintro ⟨w, hw, f, hf, hne, hp⟩
      exact ⟨w, hw, (f, c), ⟨hf, hne⟩, by rw [hp]⟩
  · simp only [mainModel] at hok
    split_ifs at hok with h1 h2 h3 h4 h5
    exact mainRun_zip_shape _ _ _ _ _ _ hok

/-- Witness for the C5 theorem: a successful archive run whose output zip
starts with the copied assets, instantiated together with the membership
characterization on the nested-compendium tree. -/
theorem c5_archive_fidelity_witness :
    (pyLower (pySplitext runArchiveCopy.compendium_path).2 ∈
      [".zip", ".compendium"]) ∧
    (mainModel runArchiveCopy =
      .ok [] [("a.png", "A"), ("sub/b.bin", "B"), ("compendium.xml", "")]) ∧
    ((("a.png", "A") ∈ copyPhase walkNestedCompendium ↔
      ∃ w ∈ walkNestedCompendium, ∃ f, (f, "A") ∈ w.files ∧
        f ≠ "compendium.xml" ∧ "a.png" = joinRel w.dir f) ∧
     ∃ tail, [("a.png", "A"), ("sub/b.bin", "B"), ("compendium.xml", "")] =
       copyPhase runArchiveCopy.archive ++ tail) :=
  ⟨by decide, by decide,
   c5_archive_fidelity walkNestedCompendium "a.png" "A" runArchiveCopy []
     [("a.png", "A"), ("sub/b.bin", "B"), ("compendium.xml", "")]
     (by decide) (by decide)⟩

end AddImages
